import Mathlib

/-!
Verification of the agentic-architecture demo pipeline (the `POST` route in
`src/app/layout.tsx`, with helpers `searchWikipedia` / `getWikipediaArticle`
and the event vocabulary of `src/lib/types.ts`).

The embedding translates the route's control flow into pure Lean functions.
External effects (the language-model calls and the two Wikipedia fetches) are
abstracted into oracles passed in explicitly; a JavaScript exception is
modelled as `Except.error` carrying the error message, and a promise
rejection of `fetch` is one of the oracle outcomes.  JavaScript `undefined`
is modelled as `Option.none` where it can flow through the route.
-/

set_option maxRecDepth 10000

/-- JSON value domain.  Models the result of the platform `JSON.parse`:
null, booleans, numbers, strings, arrays and objects.  A number carries its
source lexeme; its numeric value (and JavaScript's float re-formatting of
it when displayed) is not modelled — no claim inspects a number's value. -/
inductive Json where
  | null
  | bool (b : Bool)
  | num (lit : String)
  | str (s : String)
  | arr (xs : List Json)
  | obj (fields : List (String × Json))

/-- Whitespace skipping for the JSON reader (the four JSON whitespace
characters). -/
def skipWs : List Char → List Char
  | [] => []
  | c :: cs => if c = ' ' ∨ c = '\t' ∨ c = '\n' ∨ c = '\r' then skipWs cs else c :: cs

def parseHexDigit (c : Char) : Option Nat :=
  if '0' ≤ c ∧ c ≤ '9' then some (c.toNat - 48)
  else if 'a' ≤ c ∧ c ≤ 'f' then some (c.toNat - 87)
  else if 'A' ≤ c ∧ c ≤ 'F' then some (c.toNat - 55)
  else none

def hexQuad (h1 h2 h3 h4 : Char) : Option Nat :=
  match parseHexDigit h1, parseHexDigit h2, parseHexDigit h3, parseHexDigit h4 with
  | some a, some b, some c, some d => some (((a * 16 + b) * 16 + c) * 16 + d)
  | _, _, _, _ => none

/-- Body of a JSON string literal, after the opening quote: the standard
escapes, `\uXXXX` with surrogate-pair combination, and rejection of raw
control characters, as `JSON.parse` lexes strings.  A lone surrogate, which
a JavaScript string can hold but a Lean `Char` cannot, is rendered as
U+FFFD; no claim depends on a lone-surrogate string.  `fuel` bounds the
scan; the callers pass the character count, which always suffices since
every step consumes at least one character. -/
def parseStrBody : Nat → List Char → Option (List Char × List Char)
  | 0, _ => none
  | _ + 1, [] => none
  | _ + 1, '"' :: rest => some ([], rest)
  | fuel + 1, '\\' :: 'u' :: h1 :: h2 :: h3 :: h4 :: rest =>
    (match hexQuad h1 h2 h3 h4 with
     | none => none
     | some code =>
       if 0xD800 ≤ code ∧ code ≤ 0xDBFF then
         match rest with
         | '\\' :: 'u' :: g1 :: g2 :: g3 :: g4 :: rest2 =>
           (match hexQuad g1 g2 g3 g4 with
            | none => none
            | some code2 =>
              if 0xDC00 ≤ code2 ∧ code2 ≤ 0xDFFF then
                (match parseStrBody fuel rest2 with
                 | some (s, r) =>
                   some (Char.ofNat (0x10000 + (code - 0xD800) * 0x400 + (code2 - 0xDC00)) :: s, r)
                 | none => none)
              else
                (match parseStrBody fuel rest with
                 | some (s, r) => some ('\uFFFD' :: s, r)
                 | none => none))
         | _ =>
           (match parseStrBody fuel rest with
            | some (s, r) => some ('\uFFFD' :: s, r)
            | none => none)
       else
         let c := if 0xDC00 ≤ code ∧ code ≤ 0xDFFF then (0xFFFD : Nat) else code
         (match parseStrBody fuel rest with
          | some (s, r) => some (Char.ofNat c :: s, r)
          | none => none))
  | fuel + 1, '\\' :: e :: rest =>
    (match (match e with
            | '"' => some '"'
            | '\\' => some '\\'
            | '/' => some '/'
            | 'n' => some '\n'
            | 't' => some '\t'
            | 'r' => some '\r'
            | 'b' => some '\x08'
            | 'f' => some '\x0C'
            | _ => none) with
     | some c =>
       (match parseStrBody fuel rest with
        | some (s, r) => some (c :: s, r)
        | none => none)
     | none => none)
  | fuel + 1, c :: rest =>
    if c.toNat < 32 then none
    else
      (match parseStrBody fuel rest with
       | some (s, r) => some (c :: s, r)
       | none => none)

/-- Integer part of a JSON number: `0`, or a nonzero digit followed by
digits — a leading zero followed by another digit is not a valid token. -/
def parseIntPart : List Char → Option (List Char × List Char)
  | [] => none
  | c :: rest =>
    if c = '0' then some (['0'], rest)
    else if c.isDigit then
      some (c :: rest.takeWhile (·.isDigit), rest.drop (rest.takeWhile (·.isDigit)).length)
    else none

def parseFracPart : List Char → Option (List Char × List Char)
  | '.' :: r =>
    if (r.takeWhile (·.isDigit)).isEmpty then none
    else some ('.' :: r.takeWhile (·.isDigit), r.drop (r.takeWhile (·.isDigit)).length)
  | cs => some ([], cs)

def parseExpPart : List Char → Option (List Char × List Char)
  | c :: r =>
    if c = 'e' ∨ c = 'E' then
      match r with
      | s :: r2 =>
        if s = '+' ∨ s = '-' then
          if (r2.takeWhile (·.isDigit)).isEmpty then none
          else some (c :: s :: r2.takeWhile (·.isDigit), r2.drop (r2.takeWhile (·.isDigit)).length)
        else if (r.takeWhile (·.isDigit)).isEmpty then none
        else some (c :: r.takeWhile (·.isDigit), r.drop (r.takeWhile (·.isDigit)).length)
      | [] => none
    else some ([], c :: r)
  | [] => some ([], [])

/-- A complete JSON number token `-?(0|[1-9][0-9]*)(\.[0-9]+)?([eE][+-]?[0-9]+)?`,
returned as its source lexeme. -/
def parseNumber (cs : List Char) : Option (List Char × List Char) :=
  let (sign, cs1) := match cs with
    | '-' :: r => ((['-'] : List Char), r)
    | _ => ([], cs)
  match parseIntPart cs1 with
  | none => none
  | some (ip, cs2) =>
    match parseFracPart cs2 with
    | none => none
    | some (fp, cs3) =>
      match parseExpPart cs3 with
      | none => none
      | some (ep, cs4) => some (sign ++ ip ++ fp ++ ep, cs4)

/-- One fuel level of the JSON reader: a value reader, an object-member
reader and an array-element reader, each consulting the previous level for
nested occurrences. -/
structure JParsers where
  val : List Char → Option (Json × List Char)
  members : List Char → Option (List (String × Json) × List Char)
  elems : List Char → Option (List Json × List Char)

def jstep (p : JParsers) : JParsers :=
  { val := fun cs =>
      match skipWs cs with
      | '\x7b' :: rest =>
        (match skipWs rest with
         | '\x7d' :: r2 => some (.obj [], r2)
         | r2 =>
           (match p.members r2 with
            | some (ms, r3) => some (.obj ms, r3)
            | none => none))
      | '[' :: rest =>
        (match skipWs rest with
         | ']' :: r2 => some (.arr [], r2)
         | r2 =>
           (match p.elems r2 with
            | some (xs, r3) => some (.arr xs, r3)
            | none => none))
      | '"' :: rest =>
        (match parseStrBody rest.length rest with
         | some (s, r) => some (.str (String.mk s), r)
         | none => none)
      | 'n' :: 'u' :: 'l' :: 'l' :: rest => some (.null, rest)
      | 't' :: 'r' :: 'u' :: 'e' :: rest => some (.bool true, rest)
      | 'f' :: 'a' :: 'l' :: 's' :: 'e' :: rest => some (.bool false, rest)
      | cs2 =>
        (match parseNumber cs2 with
         | some (lit, r) => some (.num (String.mk lit), r)
         | none => none),
    members := fun cs =>
      match skipWs cs with
      | '"' :: rest =>
        (match parseStrBody rest.length rest with
         | some (k, r1) =>
           (match skipWs r1 with
            | ':' :: r2 =>
              (match p.val r2 with
               | some (v, r3) =>
                 (match skipWs r3 with
                  | ',' :: r4 =>
                    (match p.members r4 with
                     | some (ms, r5) => some ((String.mk k, v) :: ms, r5)
                     | none => none)
                  | '\x7d' :: r4 => some ([(String.mk k, v)], r4)
                  | _ => none)
               | none => none)
            | _ => none)
         | none => none)
      | _ => none,
    elems := fun cs =>
      match p.val cs with
      | some (v, r1) =>
        (match skipWs r1 with
         | ',' :: r2 =>
           (match p.elems r2 with
            | some (xs, r3) => some (v :: xs, r3)
            | none => none)
         | ']' :: r2 => some ([v], r2)
         | _ => none)
      | none => none }

def jparsers : Nat → JParsers
  | 0 => ⟨fun _ => none, fun _ => none, fun _ => none⟩
  | n + 1 => jstep (jparsers n)

/-- Model of `JSON.parse`: `none` models a thrown `SyntaxError`. -/
def jsonParse (s : String) : Option Json :=
  match (jparsers (s.length + 1)).val s.data with
  | some (j, rest) => if skipWs rest = [] then some j else none
  | none => none

/-- Property read `o[k]` on a parsed JSON value, as JavaScript resolves it:
reading a property of `null` throws, a missing key or a non-object receiver
yields `undefined` (modelled `none`); duplicate keys keep the last value,
as `JSON.parse` does. -/
def lookupLast : List (String × Json) → String → Option Json
  | [], _ => none
  | (k, v) :: rest, key =>
    match lookupLast rest key with
    | some r => some r
    | none => if k = key then some v else none

def jsGetField : Json → String → Except String (Option Json)
  | .null, _ => .error "TypeError: Cannot read properties of null"
  | .obj fs, k => .ok (lookupLast fs k)
  | _, _ => .ok none

mutual

/-- String coercion of a JavaScript value inside a template literal: an
array renders as its comma-joined elements with null elements rendering
empty, recursively, as `Array.prototype.toString` does; a number renders as
its source lexeme (JavaScript would re-format the float value; no claim
displays a number). -/
def jsDisplayJson : Json → String
  | .null => "null"
  | .bool b => if b then "true" else "false"
  | .num lit => lit
  | .str s => s
  | .arr xs => jsDisplayList xs
  | .obj _ => "[object Object]"

def jsDisplayList : List Json → String
  | [] => ""
  | x :: rest =>
    (match x with | .null => "" | _ => jsDisplayJson x) ++
    (match rest with | [] => "" | _ => "," ++ jsDisplayList rest)

end

def jsDisplay : Option Json → String
  | none => "undefined"
  | some j => jsDisplayJson j

/-- Global replacement of the regular expression `<[^>]+>` by the empty
string, as `String.prototype.replace` performs it: scan left to right; at a
literal `<`, a match needs at least one following non-`>` character and then
a `>`; on a match the scan resumes after the `>`, on a mismatch at the next
character.  `fuel` is an upper bound on the scan length (the wrapper passes
the character count, which always suffices). -/
def stripAux : Nat → List Char → List Char
  | 0, cs => cs
  | _, [] => []
  | fuel + 1, c :: rest =>
    if c = '<' then
      if (rest.takeWhile fun x => ¬(x = '>')).length ≠ 0 ∧
          (rest.takeWhile fun x => ¬(x = '>')).length < rest.length then
        stripAux fuel (rest.drop ((rest.takeWhile fun x => ¬(x = '>')).length + 1))
      else c :: stripAux fuel rest
    else c :: stripAux fuel rest

/-- Markup stripping applied to search snippets:
`excerpt.replace(/<[^>]+>/g, '')`. -/
def stripTags (s : String) : String := String.mk (stripAux s.data.length s.data)

/-- Decision procedure for "contains a match of the tag pattern `<[^>]+>`",
used to state that stripped snippets are tag free. -/
def hasTag : List Char → Bool
  | [] => false
  | c :: rest =>
    if c = '<' then
      if (rest.takeWhile fun x => ¬(x = '>')).length ≠ 0 ∧
          (rest.takeWhile fun x => ¬(x = '>')).length < rest.length then true
      else hasTag rest
    else hasTag rest

/-- Shape of one entry of `data.pages` in the search endpoint's JSON body. -/
structure WikiPage where
  title : String
  excerpt : Option String

/-- The search request the code issues: the query, and the fixed `limit=5`
written into the request URL. -/
structure SearchRequest where
  query : String
  limit : Nat

/-- Outcome of the `fetch` of the search endpoint.  `reject` models the
promise rejecting (network-level failure); `response` carries `res.ok` and
the decoded `data.pages` field (`none` models an absent field, which the
code defaults to `[]` via `?? []`). -/
inductive SearchFetchOutcome where
  | reject (msg : String)
  | response (ok : Bool) (pages : Option (List WikiPage))

/-- Outcome of the `fetch` of the page-summary endpoint, with the decoded
`data.extract` field. -/
inductive ArticleFetchOutcome where
  | reject (msg : String)
  | response (ok : Bool) (extract : Option String)

def SearchFetchOutcome.isReject : SearchFetchOutcome → Bool
  | .reject _ => true
  | .response _ _ => false

def ArticleFetchOutcome.isReject : ArticleFetchOutcome → Bool
  | .reject _ => true
  | .response _ _ => false

/-- One `{title, snippet}` candidate returned by `searchWikipedia`. -/
structure SearchResult where
  title : String
  snippet : String

/-- The external knowledge source, abstracted to the two endpoints the code
fetches from. -/
structure ToolEnv where
  search : SearchRequest → SearchFetchOutcome
  article : String → ArticleFetchOutcome

/-- Embedding of `searchWikipedia` (src/app/layout.tsx): build the request
with `limit=5`, return `[]` when `!res.ok`, otherwise map `data.pages ?? []`
to `{title, snippet}` with `excerpt?.replace(/<[^>]+>/g, '') ?? ''`.
An `Except.error` is the `fetch` promise rejection propagating. -/
def searchWikipedia (fetchS : SearchRequest → SearchFetchOutcome) (query : String) :
    Except String (List SearchResult) :=
  match fetchS { query := query, limit := 5 } with
  | .reject m => .error m
  | .response ok pages =>
    if !ok then .ok []
    else .ok ((pages.getD []).map fun p =>
      { title := p.title, snippet := (p.excerpt.map stripTags).getD "" })

/-- Embedding of `getWikipediaArticle` (src/app/layout.tsx): not-found string
when `!res.ok`, otherwise `data.extract ?? 'Artículo sin contenido.'`. -/
def getWikipediaArticle (fetchA : String → ArticleFetchOutcome) (title : String) :
    Except String String :=
  match fetchA title with
  | .reject m => .error m
  | .response ok extract =>
    if !ok then .ok ("No se encontró el artículo: " ++ title)
    else .ok (extract.getD "Artículo sin contenido.")

/-- Content segment of a model message, the discriminated union the route
inspects (`text`, `tool_use`) and builds (`tool_result`). -/
inductive ContentBlock where
  | text (s : String)
  | toolUse (id name : String) (input : List (String × String))
  | toolResult (tool_use_id : String) (content : String)

/-- Decoded model response: content segments plus the stop reason string. -/
structure ModelResponse where
  content : List ContentBlock
  stop_reason : String

/-- Message content is either a plain string or a segment list, as in the
SDK's `MessageParam`. -/
inductive MsgContent where
  | str (s : String)
  | blocks (bs : List ContentBlock)

structure MessageParam where
  role : String
  content : MsgContent

/-- Event vocabulary of src/lib/types.ts.  `supervisor_plan` carries the two
plan fields as the JavaScript values read off the parsed plan (`none` models
`undefined`).  `target` renders the source field `to` ('researcher' or
'synthesizer'), which is a reserved token in Lean. -/
inductive AgentEvent where
  | supervisor_start (message : String)
  | supervisor_plan (searchTerm responseFormat : Option Json)
  | supervisor_delegate (target : String) (instructions : String)
  | supervisor_review (message : String)
  | supervisor_done
  | researcher_start
  | researcher_thinking (text : String)
  | researcher_tool_call (tool : String) (input : List (String × String))
  | researcher_tool_result (tool : String) (resultPreview : String) (count : Option Nat)
  | researcher_done
  | synthesizer_start
  | synthesizer_done (answer : String)
  | error (message : String)

/-- Reading a string field out of `block.input` after the route's type cast:
a missing key is `undefined`, which stringifies to "undefined" at its use
sites (the request URL, the not-found message). -/
def inputStr (input : List (String × String)) (key : String) : String :=
  (input.lookup key).getD "undefined"

/-- Truthiness of `s.trim()` in JavaScript: the trimmed string is nonempty
exactly when `s` holds at least one non-whitespace character. -/
def jsTrimTruthy (s : String) : Bool :=
  s.data.any fun c => !c.isWhitespace

/-- The first `n` characters, as `s.slice(0, n)` takes them (all strings in
play are within the basic plane, where JavaScript's UTF-16 units coincide
with characters). -/
def jsSlice (s : String) (n : Nat) : String := String.mk (s.data.take n)

/-- Execution of one tool-invocation request inside the loop body of the
route (src/app/layout.tsx): the three-way dispatch on `block.name`, the
result string, and the `researcher_tool_result` event each branch emits.
`Except.error` is a fetch rejection propagating out uncaught. -/
def runTool (env : ToolEnv) (name : String) (input : List (String × String)) :
    Except String (String × AgentEvent) :=
  if name = "search_wikipedia" then
    match searchWikipedia env.search (inputStr input "query") with
    | .error e => .error e
    | .ok results =>
      let result :=
        if results.length ≠ 0 then
          String.intercalate "\n" (results.map fun r => "• " ++ r.title ++ ": " ++ r.snippet)
        else "Sin resultados."
      let preview :=
        if results.length ≠ 0 then String.intercalate ", " (results.map (·.title))
        else "Sin resultados"
      .ok (result, .researcher_tool_result name preview (some results.length))
  else if name = "get_wikipedia_article" then
    match getWikipediaArticle env.article (inputStr input "title") with
    | .error e => .error e
    | .ok result =>
      let preview := if result.length > 120 then jsSlice result 120 ++ "…" else result
      .ok (result, .researcher_tool_result name preview none)
  else
    .ok ("Herramienta desconocida.",
         .researcher_tool_result name "Herramienta desconocida." none)

/-- The `for (const block of toolUseBlocks)` loop: per request, emit the
`researcher_tool_call` event, execute, emit the result event, and push one
`tool_result` segment carrying `block.id` unchanged.  Non-`tool_use`
segments are skipped (the `continue`).  On a propagated exception the
events already emitted are retained and no further segment is produced. -/
def dispatchTools (env : ToolEnv) :
    List ContentBlock → List AgentEvent × Except String (List ContentBlock)
  | [] => ([], .ok [])
  | .toolUse id name input :: bs =>
    let callEv := AgentEvent.researcher_tool_call name input
    (match runTool env name input with
     | .error e => ([callEv], .error e)
     | .ok (result, resEv) =>
       match dispatchTools env bs with
       | (evs, .error e) => (callEv :: resEv :: evs, .error e)
       | (evs, .ok results) =>
         (callEv :: resEv :: evs, .ok (.toolResult id result :: results)))
  | _ :: bs => dispatchTools env bs

/-- Text segments surfaced as `researcher_thinking` events — only blocks
whose trimmed text is nonempty, per `block.text.trim()` truthiness. -/
def thinkingEvents (resp : ModelResponse) : List AgentEvent :=
  resp.content.filterMap fun b =>
    match b with
    | .text s => if jsTrimTruthy s then some (.researcher_thinking s) else none
    | _ => none

/-- The `content.filter((b) => b.type === 'tool_use')` projection. -/
def toolUseBlocksOf (resp : ModelResponse) : List ContentBlock :=
  resp.content.filter fun b =>
    match b with
    | .toolUse _ _ _ => true
    | _ => false

/-- First text segment of a response, then `''` if none — the
`content.find((b) => b.type === 'text')` pattern used for the findings
summary. -/
def firstTextOf (resp : ModelResponse) : String :=
  match resp.content.find? (fun b => match b with | .text _ => true | _ => false) with
  | some (.text s) => s
  | _ => ""

/-- Result of one iteration of the research loop body. -/
inductive StepResult where
  | next (assistantTurn userTurn : MessageParam) (events : List AgentEvent)
  | done (summary : String) (events : List AgentEvent)
  | failed (msg : String) (events : List AgentEvent)

/-- One iteration of the `while (continueLoop)` body, after the model call
returned `resp`: emit thinking events; on `stop_reason === 'tool_use'`
dispatch every request and build the assistant and batched user turns to
append; otherwise take the first text segment as the summary, emit
`researcher_done`, and stop. -/
def researchStep (env : ToolEnv) (resp : ModelResponse) : StepResult :=
  let tEvs := thinkingEvents resp
  if resp.stop_reason = "tool_use" then
    match dispatchTools env (toolUseBlocksOf resp) with
    | (evs, .error e) => .failed e (tEvs ++ evs)
    | (evs, .ok results) =>
      .next { role := "assistant", content := .blocks resp.content }
            { role := "user", content := .blocks results }
            (tEvs ++ evs)
  else
    .done (firstTextOf resp) (tEvs ++ [.researcher_done])

/-- How the research loop ended.  `hung` marks the modelling cutoff: the
response oracle ran out while the loop would have issued another model
call — the source imposes no iteration bound. -/
inductive LoopOutcome where
  | done (summary : String)
  | failed (msg : String)
  | hung

/-- Observable data of one research-loop run.  `histories` records the
conversation history as passed to each model call, in call order. -/
structure LoopRun where
  events : List AgentEvent
  histories : List (List MessageParam)
  finalHistory : List MessageParam
  outcome : LoopOutcome

/-- The research loop: consume one oracle response per model call; a
`tool_use` response appends one assistant turn and one batched user turn
and loops; anything else terminates with the summary.  An `Except.error`
oracle entry models the model call itself throwing. -/
def runLoop (env : ToolEnv) :
    List (Except String ModelResponse) → List MessageParam → LoopRun
  | [], msgs => ⟨[], [], msgs, .hung⟩
  | .error e :: _, msgs => ⟨[], [msgs], msgs, .failed e⟩
  | .ok resp :: rest, msgs =>
    match researchStep env resp with
    | .failed e evs => ⟨evs, [msgs], msgs, .failed e⟩
    | .done s evs => ⟨evs, [msgs], msgs, .done s⟩
    | .next aT uT evs =>
      let next := runLoop env rest (msgs ++ [aT, uT])
      ⟨evs ++ next.events, msgs :: next.histories, next.finalHistory, next.outcome⟩

/-- The substring picked by `raw.match(/\x7b[\s\S]*\x7d/)?.[0]`: the greedy
match runs from the first `\x7b` to the last `\x7d` when the former precedes
the latter, and there is no match otherwise. -/
def extractBraces (s : String) : Option String :=
  let cs := s.data
  match cs.findIdx? (· = '\x7b'), cs.reverse.findIdx? (· = '\x7d') with
  | some i, some jr =>
    let j := cs.length - 1 - jr
    if i < j then some (String.mk ((cs.drop i).take (j - i + 1))) else none
  | _, _ => none

/-- The fallback plan built in the `catch` branch of the route. -/
def defaultPlan (question : String) : Json :=
  .obj [("search_term", .str question),
        ("response_format", .str "Explicación clara y estructurada")]

/-- The `try { plan = JSON.parse(raw.match(/\x7b[\s\S]*\x7d/)?.[0] ?? raw) }
catch { plan = ... }` block: parse the extracted brace span (or the raw text
when there is none) and fall back to the default plan exactly when
`JSON.parse` throws. -/
def parsePlan (raw question : String) : Json :=
  match jsonParse ((extractBraces raw).getD raw) with
  | some j => j
  | none => defaultPlan question

/-- The `content[0].type === 'text' ? content[0].text : ''` pattern used on
the supervisor and synthesizer responses.  On an empty segment list,
`content[0]` is `undefined` and the member access throws. -/
def jsHeadText : List ContentBlock → Except String String
  | [] => .error "TypeError: Cannot read properties of undefined (reading 'type')"
  | b :: _ => .ok (match b with | .text s => s | _ => "")

def supervisorStartMsg : String :=
  "Recibí la pregunta del usuario. Voy a determinar qué investigar y en qué formato presentar la respuesta."

def supervisorReviewMsg : String :=
  "Recibí los hallazgos del Researcher. Ahora le paso los datos al Synthesizer para que construya la respuesta final."

/-- The delegation instruction derived from the plan's search term. -/
def researcherInstruction (st : Option Json) : String :=
  "Busca información sobre: \"" ++ jsDisplay st ++ "\". Usa las herramientas disponibles para encontrar datos precisos en Wikipedia. Devuélveme un resumen completo de lo que encuentres."

/-- Content of the single user turn seeding the researcher history. -/
def researcherSeedContent (st : Option Json) : String :=
  researcherInstruction st ++ "\n\nTema de investigación: \"" ++ jsDisplay st ++ "\""

/-- The delegation instruction handed to the synthesizer. -/
def synthesizerInstruction (question : String) (rf : Option Json) : String :=
  "La pregunta del usuario es: \"" ++ question ++ "\". El formato de respuesta deseado es: " ++ jsDisplay rf ++ ". Te envío los datos de investigación para que los estructures en una respuesta clara."

/-- The model backend, abstracted: the supervisor and synthesizer responses,
one researcher response per loop iteration, and the two Wikipedia endpoints.
`Except.error` models the SDK call rejecting. -/
structure RunOracle where
  supervisor : Except String ModelResponse
  researcher : List (Except String ModelResponse)
  tools : ToolEnv
  synthesizer : Except String ModelResponse

/-- Terminal status of one run: completed with a final answer, aborted by
the outer catch, or still looping (research-oracle exhausted). -/
inductive RunOutcome where
  | completed (answer : String)
  | errored (message : String)
  | hung

/-- Observable data of one `POST` run: the emitted event sequence, the
terminal status, whether `controller.close()` ran (the `finally`), and the
histories the research loop sent to the model (ghost instrumentation). -/
structure RunResult where
  events : List AgentEvent
  outcome : RunOutcome
  closed : Bool
  researchHistories : List (List MessageParam)

/-- Embedding of the `POST` route body (src/app/layout.tsx): the five phases
in order, each `await` consulting the oracle, every thrown exception routed
to the single outer catch which emits one `error` event; the `finally`
closes the stream whenever the body ends. -/
def POST (question : String) (o : RunOracle) : RunResult :=
  let e0 := [AgentEvent.supervisor_start supervisorStartMsg]
  match o.supervisor with
  | .error e => ⟨e0 ++ [.error e], .errored e, true, []⟩
  | .ok supResp =>
    match jsHeadText supResp.content with
    | .error e => ⟨e0 ++ [.error e], .errored e, true, []⟩
    | .ok raw =>
      let plan := parsePlan raw question
      match jsGetField plan "search_term" with
      | .error e => ⟨e0 ++ [.error e], .errored e, true, []⟩
      | .ok st =>
        match jsGetField plan "response_format" with
        | .error e => ⟨e0 ++ [.error e], .errored e, true, []⟩
        | .ok rf =>
          let e2 := e0 ++ [.supervisor_plan st rf,
                           .supervisor_delegate "researcher" (researcherInstruction st),
                           .researcher_start]
          let lr := runLoop o.tools o.researcher
            [{ role := "user", content := .str (researcherSeedContent st) }]
          let e3 := e2 ++ lr.events
          match lr.outcome with
          | .failed e => ⟨e3 ++ [.error e], .errored e, true, lr.histories⟩
          | .hung => ⟨e3, .hung, false, lr.histories⟩
          | .done _ =>
            let e5 := e3 ++ [.supervisor_review supervisorReviewMsg,
                             .supervisor_delegate "synthesizer"
                               (synthesizerInstruction question rf),
                             .synthesizer_start]
            match o.synthesizer with
            | .error e => ⟨e5 ++ [.error e], .errored e, true, lr.histories⟩
            | .ok synResp =>
              match jsHeadText synResp.content with
              | .error e => ⟨e5 ++ [.error e], .errored e, true, lr.histories⟩
              | .ok ans =>
                ⟨e5 ++ [.synthesizer_done ans, .supervisor_done],
                 .completed ans, true, lr.histories⟩

/-- Tool environment for runs that never invoke a tool. -/
def idleTools : ToolEnv :=
  { search := fun _ => .response false none,
    article := fun _ => .response false none }

/-- Oracle whose supervisor answers with the given raw planner text and whose
researcher and synthesizer terminate immediately with fixed texts. -/
def planOracle (raw : String) : RunOracle :=
  { supervisor := .ok ⟨[.text raw], "end_turn"⟩,
    researcher := [.ok ⟨[.text "findings"], "end_turn"⟩],
    tools := idleTools,
    synthesizer := .ok ⟨[.text "answer"], "end_turn"⟩ }

/-- Identifiers of the tool-invocation requests of a segment list. -/
def toolUseIds (bs : List ContentBlock) : List String :=
  bs.filterMap fun b => match b with | .toolUse id _ _ => some id | _ => none

/-- Identifiers carried by the tool-result segments of a segment list. -/
def toolResultIds (bs : List ContentBlock) : List String :=
  bs.filterMap fun b => match b with | .toolResult id _ => some id | _ => none

def isToolUseBlock : ContentBlock → Bool
  | .toolUse _ _ _ => true
  | _ => false

def isToolResultBlock : ContentBlock → Bool
  | .toolResult _ _ => true
  | _ => false

def isTextBlock : ContentBlock → Bool
  | .text _ => true
  | _ => false

def c2Resp : ModelResponse :=
  { content := [.toolUse "id1" "search_wikipedia" [("query", "x")],
                .toolUse "id2" "mystery_tool" []],
    stop_reason := "tool_use" }

def c2AT : MessageParam := { role := "assistant", content := .blocks c2Resp.content }

def c2UT : MessageParam :=
  { role := "user",
    content := .blocks [.toolResult "id1" "Sin resultados.",
                        .toolResult "id2" "Herramienta desconocida."] }

def c2Evs : List AgentEvent :=
  [.researcher_tool_call "search_wikipedia" [("query", "x")],
   .researcher_tool_result "search_wikipedia" "Sin resultados" (some 0),
   .researcher_tool_call "mystery_tool" [],
   .researcher_tool_result "mystery_tool" "Herramienta desconocida." none]

def c4Resp : ModelResponse := { content := [.text "X is a thing."], stop_reason := "end_turn" }

/-- Role pattern of a history seeded with one user turn after `n` completed
tool_use iterations. -/
def altRoles : Nat → List String
  | 0 => ["user"]
  | n + 1 => altRoles n ++ ["assistant", "user"]

def c10Seed : MessageParam := { role := "user", content := .str "seed instruction" }

def c10Resps : List (Except String ModelResponse) :=
  [.ok c2Resp, .ok c4Resp]

/-- Deterministic state machine runner over an event trace. -/
def runMachine (step : Nat → AgentEvent → Option Nat) : Nat → List AgentEvent → Option Nat
  | s, [] => some s
  | s, e :: es =>
    match step s e with
    | some s2 => runMachine step s2 es
    | none => none

/-- Transition relation of the event grammar the code actually follows:
supervisor_start, supervisor_plan, delegate(researcher), researcher_start,
any number of thinking / tool_call / tool_result events, researcher_done,
supervisor_review, delegate(synthesizer), synthesizer_start,
synthesizer_done, supervisor_done (state 10); a single error event may
preempt from any state after supervisor_start (state 11). -/
def codeStep : Nat → AgentEvent → Option Nat
  | 0, .supervisor_start _ => some 1
  | 1, .supervisor_plan _ _ => some 2
  | 2, .supervisor_delegate t _ => if t = "researcher" then some 3 else none
  | 3, .researcher_start => some 4
  | 4, .researcher_thinking _ => some 4
  | 4, .researcher_tool_call _ _ => some 4
  | 4, .researcher_tool_result _ _ _ => some 4
  | 4, .researcher_done => some 5
  | 5, .supervisor_review _ => some 6
  | 6, .supervisor_delegate t _ => if t = "synthesizer" then some 7 else none
  | 7, .synthesizer_start => some 8
  | 8, .synthesizer_done _ => some 9
  | 9, .supervisor_done => some 10
  | s, .error _ => if 1 ≤ s ∧ s ≤ 9 then some 11 else none
  | _, _ => none

/-- Transition relation of the event grammar C3 claims (the spec's §8 order,
which has NO review event between research-done and delegate(synthesizer)):
accepting states are 9 (complete) and 10 (error-preempted). -/
def specStep : Nat → AgentEvent → Option Nat
  | 0, .supervisor_start _ => some 1
  | 1, .supervisor_plan _ _ => some 2
  | 2, .supervisor_delegate t _ => if t = "researcher" then some 3 else none
  | 3, .researcher_start => some 4
  | 4, .researcher_thinking _ => some 4
  | 4, .researcher_tool_call _ _ => some 4
  | 4, .researcher_tool_result _ _ _ => some 4
  | 4, .researcher_done => some 5
  | 5, .supervisor_delegate t _ => if t = "synthesizer" then some 6 else none
  | 6, .synthesizer_start => some 7
  | 7, .synthesizer_done _ => some 8
  | 8, .supervisor_done => some 9
  | s, .error _ => if 1 ≤ s ∧ s ≤ 8 then some 10 else none
  | _, _ => none

def codeTraceAccepts (tr : List AgentEvent) : Bool :=
  match runMachine codeStep 0 tr with
  | some 10 => true
  | some 11 => true
  | _ => false

def specTraceAccepts (tr : List AgentEvent) : Bool :=
  match runMachine specStep 0 tr with
  | some 9 => true
  | some 10 => true
  | _ => false

/-- Events the research loop may emit while awaiting its next model call. -/
def isLoopEv : AgentEvent → Bool
  | .researcher_thinking _ => true
  | .researcher_tool_call _ _ => true
  | .researcher_tool_result _ _ _ => true
  | _ => false

def isErrorEv : AgentEvent → Bool
  | .error _ => true
  | _ => false

def isSynthesizerDoneEv : AgentEvent → Bool
  | .synthesizer_done _ => true
  | _ => false

def isSupervisorDoneEv : AgentEvent → Bool
  | .supervisor_done => true
  | _ => false

def c6Oracle : RunOracle :=
  { supervisor := .ok ⟨[.text "x"], "end_turn"⟩,
    researcher := [.ok ⟨[.text "findings"], "end_turn"⟩],
    tools := idleTools,
    synthesizer := .error "adapter exploded" }

/-- Modelled from the spec's words for comparison: "take the first text
segment as the final answer (empty string if none)". -/
def specFinalAnswer (content : List ContentBlock) : String :=
  match content.find? (isTextBlock ·) with
  | some (.text s) => s
  | _ => ""

def c7Content : List ContentBlock := [.toolUse "t1" "noise" [], .text "hola"]

def c7Oracle : RunOracle :=
  { supervisor := .ok ⟨[.text "x"], "end_turn"⟩,
    researcher := [.ok ⟨[.text "findings"], "end_turn"⟩],
    tools := idleTools,
    synthesizer := .ok ⟨c7Content, "end_turn"⟩ }

/-- Tool environment whose fetches always reject (network-level failure). -/
def rejectTools : ToolEnv :=
  { search := fun _ => .reject "network down",
    article := fun _ => .reject "network down" }

def c5Resp : ModelResponse :=
  { content := [.toolUse "t1" "get_wikipedia_article" [("title", "X")]],
    stop_reason := "tool_use" }

def c5Oracle : RunOracle :=
  { supervisor := .ok ⟨[.text "x"], "end_turn"⟩,
    researcher := [.ok c5Resp],
    tools := rejectTools,
    synthesizer := .ok ⟨[.text "answer"], "end_turn"⟩ }

/-- A tool environment none of whose fetches reject: every failure is an
HTTP-level unsuccessful response. -/
def NoReject (env : ToolEnv) : Prop :=
  (∀ r, (env.search r).isReject = false) ∧ (∀ t, (env.article t).isReject = false)

def Except.isOkResult : Except String (String × AgentEvent) → Bool
  | .ok _ => true
  | .error _ => false

def c5aTools : ToolEnv :=
  { search := fun _ => .response false none,
    article := fun _ => .response false none }

def c8Pages : List WikiPage := [{ title := "T1", excerpt := some "a<b>c" },
                                { title := "T2", excerpt := none }]

def c8S : SearchRequest → SearchFetchOutcome := fun _ => .response true (some c8Pages)

def c8A : String → ArticleFetchOutcome := fun _ => .response true (some "Summary")

/-- The display cap the code applies to a long result — the truncation
scheme of the fetch-article branch (120 characters plus an ellipsis).  This
is the "truncated preview" the claim asserts for every long tool result. -/
def articlePreviewCap (s : String) : String :=
  if s.length > 120 then jsSlice s 120 ++ "…" else s

def longTitle : String := String.mk (List.replicate 130 'a')

def longSnippet : String := String.mk (List.replicate 300 'b')

def c9Tools : ToolEnv :=
  { search := fun _ => .response true (some [{ title := longTitle, excerpt := some longSnippet }]),
    article := fun _ => .response false none }

def c9Result : String := "• " ++ longTitle ++ ": " ++ longSnippet

def longExtract : String := String.mk (List.replicate 200 'c')

def c9wTools : ToolEnv :=
  { search := fun _ => .response false none,
    article := fun _ => .response true (some longExtract) }

/-- C1 counterexample: the planner output `{"a":"b"}` is valid JSON that is
missing both required fields.  `JSON.parse` succeeds, so the route does NOT
fall back to the default plan: the resolved plan's `search_term` is
`undefined` (not the question), and the emitted `supervisor_plan` event
carries `undefined` in both fields, refuting the claim for the
"JSON missing required fields" case. -/
theorem C1_counterexample :
    jsonParse "\x7b\"a\":\"b\"\x7d" = some (.obj [("a", .str "b")]) ∧
    jsGetField (parsePlan "\x7b\"a\":\"b\"\x7d" "q") "search_term" = .ok none ∧
    jsGetField (parsePlan "\x7b\"a\":\"b\"\x7d" "q") "response_format" = .ok none ∧
    jsGetField (defaultPlan "q") "search_term" = .ok (some (.str "q")) ∧
    (POST "q" (planOracle "\x7b\"a\":\"b\"\x7d")).events.get? 1 =
      some (.supervisor_plan none none) ∧
    (none : Option Json) ≠ some (.str "q") :=
  ⟨rfl, rfl, rfl, rfl, rfl, fun h => Option.noConfusion h⟩

/-- C1 amended: the fallback to the default plan fires exactly when
`JSON.parse` throws on the extracted brace span (non-JSON text, the empty
string, no brace found) — well-formed JSON missing the required fields is
accepted as-is.  Under a parse failure the resolved plan is the default one,
the `supervisor_plan` event carries the original question and the generic
format directive, and the run still completes to a final answer. -/
theorem C1_amended (q raw : String)
    (hfail : jsonParse ((extractBraces raw).getD raw) = none) :
    parsePlan raw q = defaultPlan q ∧
    jsGetField (parsePlan raw q) "search_term" = .ok (some (.str q)) ∧
    jsGetField (parsePlan raw q) "response_format" =
      .ok (some (.str "Explicación clara y estructurada")) ∧
    (POST q (planOracle raw)).outcome = .completed "answer" ∧
    (POST q (planOracle raw)).events.get? 1 =
      some (.supervisor_plan (some (.str q))
        (some (.str "Explicación clara y estructurada"))) := by
  have hp : parsePlan raw q = defaultPlan q := by
    simp [parsePlan, hfail]
  refine ⟨hp, ?_, ?_, ?_, ?_⟩ <;>
    simp [POST, hp, planOracle, jsHeadText, defaultPlan, jsGetField, lookupLast,
      runLoop, researchStep, thinkingEvents, firstTextOf, idleTools]

/-- C1 witness: a concrete planner output with no JSON object at all. -/
theorem C1_witness :
    jsonParse ((extractBraces "plain prose, no json").getD "plain prose, no json") = none ∧
    parsePlan "plain prose, no json" "q" = defaultPlan "q" ∧
    (POST "q" (planOracle "plain prose, no json")).outcome = .completed "answer" :=
  ⟨rfl, (C1_amended "q" "plain prose, no json" rfl).1,
   (C1_amended "q" "plain prose, no json" rfl).2.2.2.1⟩

theorem dispatchTools_ok_spec (env : ToolEnv) :
    ∀ bs evs results, dispatchTools env bs = (evs, .ok results) →
      toolResultIds results = toolUseIds bs ∧
      results.length = (bs.filter (isToolUseBlock ·)).length ∧
      ∀ r ∈ results, isToolResultBlock r = true := by
  intro bs
  induction bs with
  | nil =>
    intro evs results h
    simp only [dispatchTools, Prod.mk.injEq] at h
    obtain ⟨-, h2⟩ := h
    cases h2
    simp [toolResultIds, toolUseIds]
  | cons b bs ih =>
    intro evs results h
    cases b with
    | toolUse id name input =>
      simp only [dispatchTools] at h
      cases hrt : runTool env name input with
      | error e =>
        rw [hrt] at h
        simp at h
      | ok pr =>
        obtain ⟨result, resEv⟩ := pr
        rw [hrt] at h
        cases hd : dispatchTools env bs with
        | mk evs2 r2 =>
          cases r2 with
          | error e =>
            rw [hd] at h
            simp at h
          | ok results2 =>
            rw [hd] at h
            simp only [Prod.mk.injEq, Except.ok.injEq] at h
            obtain ⟨-, h2⟩ := h
            obtain ⟨hids, hlen, hall⟩ := ih evs2 results2 hd
            subst h2
            refine ⟨?_, ?_, ?_⟩
            · simp [toolResultIds, toolUseIds] at hids ⊢
              exact hids
            · simp [isToolUseBlock, List.filter, hlen]
            · intro r hr
              rcases List.mem_cons.mp hr with h | h
              · subst h; rfl
              · exact hall r h
    | text s =>
      simp only [dispatchTools] at h
      obtain ⟨hids, hlen, hall⟩ := ih evs results h
      refine ⟨?_, ?_, hall⟩
      · simpa [toolUseIds] using hids
      · simpa [isToolUseBlock, List.filter] using hlen
    | toolResult id content =>
      simp only [dispatchTools] at h
      obtain ⟨hids, hlen, hall⟩ := ih evs results h
      refine ⟨?_, ?_, hall⟩
      · simpa [toolUseIds] using hids
      · simpa [isToolUseBlock, List.filter] using hlen

/-- Inversion of a loop iteration that continues: the appended turns are the
assistant echo of the raw segments and one batched user turn whose contents
came out of a successful dispatch. -/
theorem researchStep_next_inv (env : ToolEnv) (resp : ModelResponse)
    (aT uT : MessageParam) (evs : List AgentEvent)
    (hstep : researchStep env resp = .next aT uT evs) :
    aT = { role := "assistant", content := .blocks resp.content } ∧
    ∃ results, uT = { role := "user", content := .blocks results } ∧
      dispatchTools env (toolUseBlocksOf resp) =
        (evs.drop (thinkingEvents resp).length, .ok results) := by
  unfold researchStep at hstep
  by_cases hs : resp.stop_reason = "tool_use"
  · rw [if_pos hs] at hstep
    cases hd : dispatchTools env (toolUseBlocksOf resp) with
    | mk evs2 r2 =>
      cases r2 with
      | error e => rw [hd] at hstep; simp at hstep
      | ok results =>
        rw [hd] at hstep
        simp only [StepResult.next.injEq] at hstep
        obtain ⟨h1, h2, h3⟩ := hstep
        subst h1; subst h2; subst h3
        exact ⟨rfl, results, rfl, by rw [List.drop_left]⟩
  · rw [if_neg hs] at hstep
    simp at hstep

theorem toolUseIds_filter :
    ∀ bs : List ContentBlock, toolUseIds (bs.filter (isToolUseBlock ·)) = toolUseIds bs := by
  intro bs
  induction bs with
  | nil => rfl
  | cons b bs ih =>
    cases b with
    | toolUse id name input => simp [toolUseIds, List.filter, isToolUseBlock] at ih ⊢; exact ih
    | text s => simp [toolUseIds, List.filter, isToolUseBlock] at ih ⊢; exact ih
    | toolResult id c => simp [toolUseIds, List.filter, isToolUseBlock] at ih ⊢; exact ih

/-- C2: in an iteration whose response stops for tool use and which continues
the loop, the appended follow-up user turn contains exactly one tool_result
per tool-invocation request of the response, the identifiers echoed
unchanged and in order, regardless of how each execution fared; the batched
user turn is appended right after a single assistant turn echoing the raw
segments. -/
theorem C2_theorem (env : ToolEnv) (resp : ModelResponse)
    (aT uT : MessageParam) (evs : List AgentEvent)
    (_hstop : resp.stop_reason = "tool_use")
    (hstep : researchStep env resp = .next aT uT evs) :
    aT = { role := "assistant", content := .blocks resp.content } ∧
    ∃ results, uT = { role := "user", content := .blocks results } ∧
      toolResultIds results = toolUseIds resp.content ∧
      results.length = (toolUseBlocksOf resp).length ∧
      (∀ r ∈ results, isToolResultBlock r = true) ∧
      ∀ rest msgs, runLoop env (.ok resp :: rest) msgs =
        { events := evs ++ (runLoop env rest (msgs ++ [aT, uT])).events,
          histories := msgs :: (runLoop env rest (msgs ++ [aT, uT])).histories,
          finalHistory := (runLoop env rest (msgs ++ [aT, uT])).finalHistory,
          outcome := (runLoop env rest (msgs ++ [aT, uT])).outcome } := by
  obtain ⟨h1, results, h2, hd⟩ := researchStep_next_inv env resp aT uT evs hstep
  obtain ⟨hids, hlen, hall⟩ :=
    dispatchTools_ok_spec env (toolUseBlocksOf resp) _ results hd
  refine ⟨h1, results, h2, ?_, ?_, hall, ?_⟩
  · rw [hids]
    exact toolUseIds_filter resp.content
  · rw [hlen]
    congr 1
    apply List.filter_eq_self.mpr
    intro b hb
    unfold toolUseBlocksOf at hb
    exact (List.mem_filter.mp hb).2
  · intro rest msgs
    simp [runLoop, hstep]

/-- C2 witness: a turn with one failing search (no results) and one
unrecognized tool still yields one result per request, ids unchanged. -/
theorem C2_witness :
    c2AT = { role := "assistant", content := .blocks c2Resp.content } ∧
    ∃ results, c2UT = { role := "user", content := .blocks results } ∧
      toolResultIds results = toolUseIds c2Resp.content ∧
      results.length = (toolUseBlocksOf c2Resp).length ∧
      (∀ r ∈ results, isToolResultBlock r = true) ∧
      ∀ rest msgs, runLoop idleTools (.ok c2Resp :: rest) msgs =
        { events := c2Evs ++ (runLoop idleTools rest (msgs ++ [c2AT, c2UT])).events,
          histories := msgs :: (runLoop idleTools rest (msgs ++ [c2AT, c2UT])).histories,
          finalHistory := (runLoop idleTools rest (msgs ++ [c2AT, c2UT])).finalHistory,
          outcome := (runLoop idleTools rest (msgs ++ [c2AT, c2UT])).outcome } :=
  C2_theorem idleTools c2Resp c2AT c2UT c2Evs rfl rfl

theorem find?_first_text :
    ∀ (pre : List ContentBlock) (s : String) (post : List ContentBlock),
      (∀ b ∈ pre, isTextBlock b = false) →
      (pre ++ .text s :: post).find? (isTextBlock ·) = some (.text s) := by
  intro pre
  induction pre with
  | nil => intro s post _; simp [List.find?, isTextBlock]
  | cons b pre ih =>
    intro s post hall
    have hb : isTextBlock b = false := hall b (List.mem_cons_self b pre)
    simp only [List.cons_append, List.find?, hb]
    exact ih s post fun x hx => hall x (List.mem_cons_of_mem b hx)

theorem firstTextOf_eq (resp : ModelResponse) :
    firstTextOf resp =
      match resp.content.find? (isTextBlock ·) with
      | some (.text s) => s
      | _ => "" := rfl

/-- C4: whenever a researcher response's stop reason is not `tool_use`, the
iteration reaches the terminal branch: the summary is the first text
segment (the empty string when none exists), a `researcher_done` event ends
the iteration's events, and no iteration with a pending tool request ever
takes the terminal branch (the `done` outcome only arises from a
non-`tool_use` stop reason). -/
theorem C4_theorem (env : ToolEnv) (resp : ModelResponse)
    (h : resp.stop_reason ≠ "tool_use") :
    researchStep env resp =
      .done (firstTextOf resp) (thinkingEvents resp ++ [.researcher_done]) ∧
    (∀ pre s post, resp.content = pre ++ .text s :: post →
        (∀ b ∈ pre, isTextBlock b = false) → firstTextOf resp = s) ∧
    ((∀ b ∈ resp.content, isTextBlock b = false) → firstTextOf resp = "") ∧
    (∀ (env2 : ToolEnv) (resp2 : ModelResponse) s evs,
        researchStep env2 resp2 = .done s evs → resp2.stop_reason ≠ "tool_use") := by
  refine ⟨?_, ?_, ?_, ?_⟩
  · simp [researchStep, h]
  · intro pre s post hc hall
    rw [firstTextOf_eq, hc, find?_first_text pre s post hall]
  · intro hall
    rw [firstTextOf_eq, List.find?_eq_none.mpr fun b hb => by simp [hall b hb]]
  · intro env2 resp2 s evs hstep hs
    unfold researchStep at hstep
    rw [if_pos hs] at hstep
    cases hd : dispatchTools env2 (toolUseBlocksOf resp2) with
    | mk evs2 r2 =>
      cases r2 with
      | error e => rw [hd] at hstep; simp at hstep
      | ok results => rw [hd] at hstep; simp at hstep

/-- C4 witness: a terminal response with one text segment. -/
theorem C4_witness :
    (("end_turn" : String) ≠ "tool_use") ∧
    (researchStep idleTools c4Resp =
      .done (firstTextOf c4Resp) (thinkingEvents c4Resp ++ [.researcher_done]) ∧
    (∀ pre s post, c4Resp.content = pre ++ .text s :: post →
        (∀ b ∈ pre, isTextBlock b = false) → firstTextOf c4Resp = s) ∧
    ((∀ b ∈ c4Resp.content, isTextBlock b = false) → firstTextOf c4Resp = "") ∧
    (∀ (env2 : ToolEnv) (resp2 : ModelResponse) s evs,
        researchStep env2 resp2 = .done s evs → resp2.stop_reason ≠ "tool_use")) :=
  ⟨by decide, C4_theorem idleTools c4Resp (by decide)⟩

theorem altRoles_ne_nil (n : Nat) : altRoles n ≠ [] := by
  cases n with
  | zero => simp [altRoles]
  | succ m => simp [altRoles]

theorem altRoles_length (n : Nat) : (altRoles n).length = 2 * n + 1 := by
  induction n with
  | zero => rfl
  | succ m ih => simp [altRoles, ih]; ring

theorem altRoles_head (n : Nat) : (altRoles n).head? = some "user" := by
  induction n with
  | zero => rfl
  | succ m ih => rw [altRoles, List.head?_append_of_ne_nil _ (altRoles_ne_nil m)]; exact ih

theorem altRoles_getLast (n : Nat) : (altRoles n).getLast? = some "user" := by
  cases n with
  | zero => rfl
  | succ m => rw [altRoles, List.getLast?_append_cons]; rfl

theorem altRoles_chain (n : Nat) : List.Chain' (· ≠ ·) (altRoles n) := by
  induction n with
  | zero => simp [altRoles]
  | succ m ih =>
    rw [altRoles, List.chain'_append]
    refine ⟨ih, by simp, ?_⟩
    intro x hx y hy
    rw [altRoles_getLast m] at hx
    cases hx
    simp at hy
    cases hy
    simp

theorem runLoop_histories_alt (env : ToolEnv) :
    ∀ (resps : List (Except String ModelResponse)) (msgs : List MessageParam) (n : Nat),
      msgs.map (·.role) = altRoles n →
      ∀ h ∈ (runLoop env resps msgs).histories, ∃ m, h.map (·.role) = altRoles m := by
  intro resps
  induction resps with
  | nil => intro msgs n hm h hh; simp [runLoop] at hh
  | cons r rest ih =>
    intro msgs n hm h hh
    cases r with
    | error e =>
      simp [runLoop] at hh
      exact hh ▸ ⟨n, hm⟩
    | ok resp =>
      cases hstep : researchStep env resp with
      | failed e evs =>
        simp [runLoop, hstep] at hh
        exact hh ▸ ⟨n, hm⟩
      | done s evs =>
        simp [runLoop, hstep] at hh
        exact hh ▸ ⟨n, hm⟩
      | next aT uT evs =>
        simp only [runLoop, hstep, List.mem_cons] at hh
        rcases hh with hh | hh
        · exact hh ▸ ⟨n, hm⟩
        · obtain ⟨-, results, huT, -⟩ := researchStep_next_inv env resp aT uT evs hstep
          refine ih (msgs ++ [aT, uT]) (n + 1) ?_ h hh
          have haT : aT.role = "assistant" := by
            obtain ⟨h1, -⟩ := researchStep_next_inv env resp aT uT evs hstep
            rw [h1]
          have huTr : uT.role = "user" := by rw [huT]
          simp [hm, haT, huTr, altRoles]

/-- C10: every conversation history the research loop hands to a model call,
starting from a single seeding user turn, alternates roles user, assistant,
user, ..., user: odd length, first and last turns are user turns, and no two
consecutive turns share a role. -/
theorem C10_theorem (env : ToolEnv) (resps : List (Except String ModelResponse))
    (seed : MessageParam) (hrole : seed.role = "user") :
    ∀ h ∈ (runLoop env resps [seed]).histories,
      ∃ n, h.map (·.role) = altRoles n ∧
        h.length % 2 = 1 ∧
        (h.map (·.role)).head? = some "user" ∧
        (h.map (·.role)).getLast? = some "user" ∧
        List.Chain' (· ≠ ·) (h.map (·.role)) := by
  intro h hh
  obtain ⟨m, hm⟩ := runLoop_histories_alt env resps [seed] 0 (by simp [hrole, altRoles]) h hh
  refine ⟨m, hm, ?_, ?_, ?_, ?_⟩
  · have : h.length = 2 * m + 1 := by
      have := altRoles_length m
      rw [← hm] at this
      simpa using this
    omega
  · rw [hm, altRoles_head]
  · rw [hm, altRoles_getLast]
  · rw [hm]; exact altRoles_chain m

/-- C10 witness: a loop with one tool_use iteration followed by a terminal
response; the history before the second model call is user, assistant,
user. -/
theorem C10_witness :
    c10Seed.role = "user" ∧
    ([c10Seed, c2AT, c2UT] ∈ (runLoop idleTools c10Resps [c10Seed]).histories ∧
     ∃ n, ([c10Seed, c2AT, c2UT].map (·.role) = altRoles n ∧
        ([c10Seed, c2AT, c2UT] : List MessageParam).length % 2 = 1 ∧
        ([c10Seed, c2AT, c2UT].map (·.role)).head? = some "user" ∧
        ([c10Seed, c2AT, c2UT].map (·.role)).getLast? = some "user" ∧
        List.Chain' (· ≠ ·) ([c10Seed, c2AT, c2UT].map (·.role)))) := by
  have hmem : [c10Seed, c2AT, c2UT] ∈ (runLoop idleTools c10Resps [c10Seed]).histories := by
    show [c10Seed, c2AT, c2UT] ∈ [[c10Seed], [c10Seed, c2AT, c2UT]]
    exact List.Mem.tail _ (List.Mem.head _)
  refine ⟨rfl, hmem, ?_⟩
  obtain ⟨n, hn⟩ := C10_theorem idleTools c10Resps c10Seed rfl [c10Seed, c2AT, c2UT] hmem
  exact ⟨n, hn⟩

theorem runMachine_append (step : Nat → AgentEvent → Option Nat)
    (a : List AgentEvent) :
    ∀ (s : Nat) (b : List AgentEvent),
      runMachine step s (a ++ b) =
        match runMachine step s a with
        | some s2 => runMachine step s2 b
        | none => none := by
  induction a with
  | nil => intro s b; rfl
  | cons e es ih =>
    intro s b
    simp only [List.cons_append, runMachine]
    cases step s e with
    | some s2 => exact ih s2 b
    | none => rfl

theorem runMachine_append_of (step : Nat → AgentEvent → Option Nat)
    (a b : List AgentEvent) (s s2 : Nat)
    (h : runMachine step s a = some s2) :
    runMachine step s (a ++ b) = runMachine step s2 b := by
  rw [runMachine_append, h]

theorem codeStep_loopEv {e : AgentEvent} (h : isLoopEv e = true) :
    codeStep 4 e = some 4 := by
  cases e <;> simp [isLoopEv] at h <;> rfl

theorem runMachine_loop {evs : List AgentEvent}
    (h : ∀ e ∈ evs, isLoopEv e = true) :
    runMachine codeStep 4 evs = some 4 := by
  induction evs with
  | nil => rfl
  | cons e es ih =>
    simp only [runMachine, codeStep_loopEv (h e (List.mem_cons_self e es))]
    exact ih fun x hx => h x (List.mem_cons_of_mem e hx)

theorem thinkingEvents_loopEv (resp : ModelResponse) :
    ∀ e ∈ thinkingEvents resp, isLoopEv e = true := by
  intro e he
  obtain ⟨b, hb, hfb⟩ := List.mem_filterMap.mp he
  cases b with
  | text s =>
    by_cases hs : jsTrimTruthy s
    · simp [hs] at hfb
      rw [← hfb]
      rfl
    · simp [hs] at hfb
  | toolUse id name input => simp at hfb
  | toolResult id c => simp at hfb

theorem runTool_event (env : ToolEnv) (name : String) (input : List (String × String))
    (s : String) (ev : AgentEvent) (h : runTool env name input = .ok (s, ev)) :
    isLoopEv ev = true := by
  unfold runTool at h
  by_cases h1 : name = "search_wikipedia"
  · rw [if_pos h1] at h
    cases hs : searchWikipedia env.search (inputStr input "query") with
    | error e => rw [hs] at h; simp at h
    | ok results =>
      rw [hs] at h
      simp only [Except.ok.injEq, Prod.mk.injEq] at h
      rw [← h.2]
      rfl
  · rw [if_neg h1] at h
    by_cases h2 : name = "get_wikipedia_article"
    · rw [if_pos h2] at h
      cases ha : getWikipediaArticle env.article (inputStr input "title") with
      | error e => rw [ha] at h; simp at h
      | ok result =>
        rw [ha] at h
        simp only [Except.ok.injEq, Prod.mk.injEq] at h
        rw [← h.2]
        rfl
    · rw [if_neg h2] at h
      simp only [Except.ok.injEq, Prod.mk.injEq] at h
      rw [← h.2]
      rfl

theorem dispatch_events_loopEv (env : ToolEnv) :
    ∀ bs, ∀ e ∈ (dispatchTools env bs).1, isLoopEv e = true := by
  intro bs
  induction bs with
  | nil => intro e he; simp [dispatchTools] at he
  | cons b bs ih =>
    intro e he
    cases b with
    | toolUse id name input =>
      simp only [dispatchTools] at he
      cases hrt : runTool env name input with
      | error er =>
        rw [hrt] at he
        simp at he
        rw [he]
        rfl
      | ok pr =>
        obtain ⟨result, resEv⟩ := pr
        rw [hrt] at he
        cases hd : dispatchTools env bs with
        | mk evs2 r2 =>
          rw [hd] at he
          have hmem : e ∈ AgentEvent.researcher_tool_call name input :: resEv :: evs2 := by
            cases r2 with
            | error e2 => simpa using he
            | ok results2 => simpa using he
          rcases List.mem_cons.mp hmem with h | h
          · rw [h]; rfl
          · rcases List.mem_cons.mp h with h | h
            · rw [h]; exact runTool_event env name input result resEv hrt
            · have := ih e
              rw [hd] at this
              exact this h
    | text s => exact ih e he
    | toolResult id c => exact ih e he

theorem runLoop_events_machine (env : ToolEnv) :
    ∀ (resps : List (Except String ModelResponse)) (msgs : List MessageParam),
      runMachine codeStep 4 (runLoop env resps msgs).events =
        some (match (runLoop env resps msgs).outcome with
              | .done _ => 5
              | _ => 4) := by
  intro resps
  induction resps with
  | nil => intro msgs; rfl
  | cons r rest ih =>
    intro msgs
    cases r with
    | error e => rfl
    | ok resp =>
      by_cases hs : resp.stop_reason = "tool_use"
      · cases hd : dispatchTools env (toolUseBlocksOf resp) with
        | mk evs2 r2 =>
          cases r2 with
          | error e2 =>
            have hstep : researchStep env resp = .failed e2 (thinkingEvents resp ++ evs2) := by
              simp [researchStep, hs, hd]
            simp only [runLoop, hstep]
            rw [runMachine_append_of codeStep _ _ 4 4
                (runMachine_loop (thinkingEvents_loopEv resp))]
            exact runMachine_loop fun e he => by
              have := dispatch_events_loopEv env (toolUseBlocksOf resp) e
              rw [hd] at this
              exact this he
          | ok results =>
            have hstep : researchStep env resp =
                .next { role := "assistant", content := .blocks resp.content }
                      { role := "user", content := .blocks results }
                      (thinkingEvents resp ++ evs2) := by
              simp [researchStep, hs, hd]
            simp only [runLoop, hstep]
            rw [List.append_assoc, runMachine_append_of codeStep _ _ 4 4
                (runMachine_loop (thinkingEvents_loopEv resp))]
            rw [runMachine_append_of codeStep _ _ 4 4 (runMachine_loop fun e he => by
              have := dispatch_events_loopEv env (toolUseBlocksOf resp) e
              rw [hd] at this
              exact this he)]
            exact ih _
      · have hstep : researchStep env resp =
            .done (firstTextOf resp) (thinkingEvents resp ++ [.researcher_done]) := by
          simp [researchStep, hs]
        simp only [runLoop, hstep]
        rw [runMachine_append_of codeStep _ _ 4 4
            (runMachine_loop (thinkingEvents_loopEv resp))]
        rfl

/-- C3 amended: every terminated run's event trace follows the grammar
supervisor_start, supervisor_plan, delegate(researcher), researcher_start,
(thinking | tool_call | tool_result)*, researcher_done, supervisor_review,
delegate(synthesizer), synthesizer_start, synthesizer_done, supervisor_done,
with a single error event able to preempt and terminate the trace at any
point after supervisor_start.  This differs from the claimed order by the
supervisor_review event between researcher_done and delegate(synthesizer). -/
theorem C3_amended (q : String) (o : RunOracle)
    (hout : (POST q o).outcome ≠ .hung) :
    codeTraceAccepts (POST q o).events = true := by
  unfold POST at hout ⊢
  cases hsup : o.supervisor with
  | error e => simp [hsup, codeTraceAccepts, runMachine, codeStep]
  | ok supResp =>
    simp only [hsup] at hout ⊢
    cases hht : jsHeadText supResp.content with
    | error e => simp [hht, codeTraceAccepts, runMachine, codeStep]
    | ok raw =>
      simp only [hht] at hout ⊢
      cases hst : jsGetField (parsePlan raw q) "search_term" with
      | error e => simp [hst, codeTraceAccepts, runMachine, codeStep]
      | ok st =>
        simp only [hst] at hout ⊢
        cases hrf : jsGetField (parsePlan raw q) "response_format" with
        | error e => simp [hrf, codeTraceAccepts, runMachine, codeStep]
        | ok rf =>
          simp only [hrf] at hout ⊢
          have h1 : runMachine codeStep 0
              ([AgentEvent.supervisor_start supervisorStartMsg] ++
               [.supervisor_plan st rf,
                .supervisor_delegate "researcher" (researcherInstruction st),
                .researcher_start]) = some 4 := by
            simp [runMachine, codeStep]
          cases hlo : (runLoop o.tools o.researcher
              [{ role := "user", content := .str (researcherSeedContent st) }]).outcome with
          | failed e =>
            simp only [hlo] at hout ⊢
            have h2 := runMachine_append_of codeStep _
              (runLoop o.tools o.researcher
                [{ role := "user", content := .str (researcherSeedContent st) }]).events
              0 4 h1
            rw [runLoop_events_machine, hlo] at h2
            unfold codeTraceAccepts
            rw [runMachine_append_of codeStep _ _ 0 4 h2]
            rfl
          | hung =>
            simp only [hlo] at hout
            simp at hout
          | done s =>
            simp only [hlo] at hout ⊢
            have h2 := runMachine_append_of codeStep _
              (runLoop o.tools o.researcher
                [{ role := "user", content := .str (researcherSeedContent st) }]).events
              0 4 h1
            rw [runLoop_events_machine, hlo] at h2
            have h3 : runMachine codeStep 0
                ((([AgentEvent.supervisor_start supervisorStartMsg] ++
                   [.supervisor_plan st rf,
                    .supervisor_delegate "researcher" (researcherInstruction st),
                    .researcher_start]) ++
                  (runLoop o.tools o.researcher
                    [{ role := "user", content := .str (researcherSeedContent st) }]).events) ++
                 [.supervisor_review supervisorReviewMsg,
                  .supervisor_delegate "synthesizer" (synthesizerInstruction q rf),
                  .synthesizer_start]) = some 8 := by
              rw [runMachine_append_of codeStep _ _ 0 5 h2]
              simp [runMachine, codeStep]
            cases hsyn : o.synthesizer with
            | error e =>
              simp only [hsyn]
              unfold codeTraceAccepts
              rw [List.append_assoc, List.append_assoc]
              rw [← List.append_assoc, ← List.append_assoc]
              rw [runMachine_append_of codeStep _ _ 0 8 h3]
              rfl
            | ok synResp =>
              simp only [hsyn]
              cases hha : jsHeadText synResp.content with
              | error e =>
                simp only [hha]
                unfold codeTraceAccepts
                rw [runMachine_append_of codeStep _ _ 0 8 h3]
                rfl
              | ok ans =>
                simp only [hha]
                unfold codeTraceAccepts
                rw [runMachine_append_of codeStep _ _ 0 8 h3]
                rfl

/-- C3 witness: a concrete terminated run is accepted by the code's event
grammar. -/
theorem C3_witness :
    (POST "q" (planOracle "x")).outcome ≠ .hung ∧
    codeTraceAccepts (POST "q" (planOracle "x")).events = true :=
  ⟨fun h => RunOutcome.noConfusion h,
   C3_amended "q" (planOracle "x") fun h => RunOutcome.noConfusion h⟩

/-- C3 counterexample: a successfully completed run (no error preemption)
whose trace is rejected by the claimed grammar — the code emits a
supervisor_review event between researcher_done and delegate(synthesizer),
an event kind outside the claimed closed sequence. -/
theorem C3_counterexample :
    (POST "q" (planOracle "x")).outcome = .completed "answer" ∧
    specTraceAccepts (POST "q" (planOracle "x")).events = false ∧
    (POST "q" (planOracle "x")).events.countP
      (fun e => match e with | .supervisor_review _ => true | _ => false) = 1 :=
  ⟨rfl, rfl, rfl⟩

theorem runLoop_events_kinds (env : ToolEnv) :
    ∀ (resps : List (Except String ModelResponse)) (msgs : List MessageParam),
      ∀ e ∈ (runLoop env resps msgs).events,
        isLoopEv e = true ∨ e = .researcher_done := by
  intro resps
  induction resps with
  | nil => intro msgs e he; simp [runLoop] at he
  | cons r rest ih =>
    intro msgs e he
    cases r with
    | error er => simp [runLoop] at he
    | ok resp =>
      by_cases hs : resp.stop_reason = "tool_use"
      · cases hd : dispatchTools env (toolUseBlocksOf resp) with
        | mk evs2 r2 =>
          cases r2 with
          | error e2 =>
            have hstep : researchStep env resp = .failed e2 (thinkingEvents resp ++ evs2) := by
              simp [researchStep, hs, hd]
            simp only [runLoop, hstep] at he
            rcases List.mem_append.mp he with h | h
            · exact Or.inl (thinkingEvents_loopEv resp e h)
            · refine Or.inl ?_
              have := dispatch_events_loopEv env (toolUseBlocksOf resp) e
              rw [hd] at this
              exact this h
          | ok results =>
            have hstep : researchStep env resp =
                .next { role := "assistant", content := .blocks resp.content }
                      { role := "user", content := .blocks results }
                      (thinkingEvents resp ++ evs2) := by
              simp [researchStep, hs, hd]
            simp only [runLoop, hstep] at he
            rcases List.mem_append.mp he with h | h
            · rcases List.mem_append.mp h with h2 | h2
              · exact Or.inl (thinkingEvents_loopEv resp e h2)
              · refine Or.inl ?_
                have := dispatch_events_loopEv env (toolUseBlocksOf resp) e
                rw [hd] at this
                exact this h2
            · exact ih _ e h
      · have hstep : researchStep env resp =
            .done (firstTextOf resp) (thinkingEvents resp ++ [.researcher_done]) := by
          simp [researchStep, hs]
        simp only [runLoop, hstep] at he
        rcases List.mem_append.mp he with h | h
        · exact Or.inl (thinkingEvents_loopEv resp e h)
        · simp at h
          exact Or.inr h

theorem loop_event_not_terminal {e : AgentEvent}
    (h : isLoopEv e = true ∨ e = .researcher_done) :
    isErrorEv e = false ∧ isSynthesizerDoneEv e = false ∧ isSupervisorDoneEv e = false := by
  rcases h with h | h
  · cases e <;> simp [isLoopEv] at h <;> exact ⟨rfl, rfl, rfl⟩
  · rw [h]; exact ⟨rfl, rfl, rfl⟩

theorem runLoop_countP_zero (env : ToolEnv)
    (resps : List (Except String ModelResponse)) (msgs : List MessageParam)
    (p : AgentEvent → Bool)
    (hp : ∀ e, (isLoopEv e = true ∨ e = .researcher_done) → p e = false) :
    (runLoop env resps msgs).events.countP p = 0 := by
  refine List.countP_eq_zero.mpr ?_
  intro e he
  simp [hp e (runLoop_events_kinds env resps msgs e he)]

/-- C6: any unhandled exception thrown anywhere during the pipeline — the
supervisor call, the `content[0]` read, a plan-field read on a null plan, a
researcher call, a tool-fetch rejection, or the synthesis call — is caught
exactly once at the orchestrator boundary: every aborted run's trace ends
with a single error event carrying the exception's message, contains no
synthesizer_done and no supervisor_done event, the stream is closed, and
no final answer is produced. -/
theorem C6_theorem (q : String) (o : RunOracle) (m : String)
    (herr : (POST q o).outcome = .errored m) :
    (POST q o).events.getLast? = some (.error m) ∧
    (POST q o).events.countP isErrorEv = 1 ∧
    (POST q o).events.countP isSynthesizerDoneEv = 0 ∧
    (POST q o).events.countP isSupervisorDoneEv = 0 ∧
    (POST q o).closed = true ∧
    ∀ a, (POST q o).outcome ≠ .completed a := by
  unfold POST at herr ⊢
  cases hsup : o.supervisor with
  | error e =>
    simp only [hsup] at herr ⊢
    have hm : e = m := by simpa using herr
    subst hm
    refine ⟨?_, ?_, ?_, ?_, ?_, ?_⟩ <;> first | trivial | (intro a h; exact RunOutcome.noConfusion h)
  | ok supResp =>
    simp only [hsup] at herr ⊢
    cases hht : jsHeadText supResp.content with
    | error e =>
      simp only [hht] at herr ⊢
      have hm : e = m := by simpa using herr
      subst hm
      refine ⟨?_, ?_, ?_, ?_, ?_, ?_⟩ <;> first | trivial | (intro a h; exact RunOutcome.noConfusion h)
    | ok raw =>
      simp only [hht] at herr ⊢
      cases hst : jsGetField (parsePlan raw q) "search_term" with
      | error e =>
        simp only [hst] at herr ⊢
        have hm : e = m := by simpa using herr
        subst hm
        refine ⟨?_, ?_, ?_, ?_, ?_, ?_⟩ <;> first | trivial | (intro a h; exact RunOutcome.noConfusion h)
      | ok st =>
        simp only [hst] at herr ⊢
        cases hrf : jsGetField (parsePlan raw q) "response_format" with
        | error e =>
          simp only [hrf] at herr ⊢
          have hm : e = m := by simpa using herr
          subst hm
          refine ⟨?_, ?_, ?_, ?_, ?_, ?_⟩ <;> first | trivial | (intro a h; exact RunOutcome.noConfusion h)
        | ok rf =>
          simp only [hrf] at herr ⊢
          have hz1 := runLoop_countP_zero o.tools o.researcher
            [{ role := "user", content := .str (researcherSeedContent st) }]
            isErrorEv (fun ev hev => (loop_event_not_terminal hev).1)
          have hz2 := runLoop_countP_zero o.tools o.researcher
            [{ role := "user", content := .str (researcherSeedContent st) }]
            isSynthesizerDoneEv (fun ev hev => (loop_event_not_terminal hev).2.1)
          have hz3 := runLoop_countP_zero o.tools o.researcher
            [{ role := "user", content := .str (researcherSeedContent st) }]
            isSupervisorDoneEv (fun ev hev => (loop_event_not_terminal hev).2.2)
          cases hlo : (runLoop o.tools o.researcher
              [{ role := "user", content := .str (researcherSeedContent st) }]).outcome with
          | failed e =>
            simp only [hlo] at herr ⊢
            have hm : e = m := by simpa using herr
            subst hm
            refine ⟨?_, ?_, ?_, ?_, by trivial,
              by first | trivial | (intro a h; exact RunOutcome.noConfusion h)⟩
            · rw [List.getLast?_concat]
            · simp [List.countP_append, hz1, List.countP_cons, isErrorEv]
            · simp [List.countP_append, hz2, List.countP_cons, isSynthesizerDoneEv]
            · simp [List.countP_append, hz3, List.countP_cons, isSupervisorDoneEv]
          | hung =>
            simp only [hlo] at herr
            simp at herr
          | done s =>
            simp only [hlo] at herr ⊢
            cases hsyn : o.synthesizer with
            | error e =>
              simp only [hsyn] at herr ⊢
              have hm : e = m := by simpa using herr
              subst hm
              refine ⟨?_, ?_, ?_, ?_, by trivial,
              by first | trivial | (intro a h; exact RunOutcome.noConfusion h)⟩
              · rw [List.getLast?_concat]
              · simp [List.countP_append, hz1, List.countP_cons, isErrorEv]
              · simp [List.countP_append, hz2, List.countP_cons, isSynthesizerDoneEv]
              · simp [List.countP_append, hz3, List.countP_cons, isSupervisorDoneEv]
            | ok synResp =>
              simp only [hsyn] at herr ⊢
              cases hha : jsHeadText synResp.content with
              | error e =>
                simp only [hha] at herr ⊢
                have hm : e = m := by simpa using herr
                subst hm
                refine ⟨?_, ?_, ?_, ?_, by trivial,
              by first | trivial | (intro a h; exact RunOutcome.noConfusion h)⟩
                · rw [List.getLast?_concat]
                · simp [List.countP_append, hz1, List.countP_cons, isErrorEv]
                · simp [List.countP_append, hz2, List.countP_cons, isSynthesizerDoneEv]
                · simp [List.countP_append, hz3, List.countP_cons, isSupervisorDoneEv]
              | ok ans =>
                simp only [hha] at herr
                simp at herr

/-- C6 witness: a concrete aborted run — the synthesis call throws. -/
theorem C6_witness :
    (POST "q" c6Oracle).outcome = .errored "adapter exploded" ∧
    ((POST "q" c6Oracle).events.getLast? = some (.error "adapter exploded") ∧
     (POST "q" c6Oracle).events.countP isErrorEv = 1 ∧
     (POST "q" c6Oracle).events.countP isSynthesizerDoneEv = 0 ∧
     (POST "q" c6Oracle).events.countP isSupervisorDoneEv = 0 ∧
     (POST "q" c6Oracle).closed = true ∧
     ∀ a, (POST "q" c6Oracle).outcome ≠ .completed a) :=
  ⟨rfl, C6_theorem "q" c6Oracle "adapter exploded" rfl⟩

/-- C7 counterexample: a synthesizer response whose first segment is not a
text segment but whose first text segment is "hola".  The route reads
`content[0]` only, so the emitted final answer is the empty string, not the
first text segment. -/
theorem C7_counterexample :
    jsHeadText c7Content = .ok "" ∧
    specFinalAnswer c7Content = "hola" ∧
    (POST "q" c7Oracle).outcome = .completed "" ∧
    ("" : String) ≠ "hola" :=
  ⟨rfl, rfl, rfl, by decide⟩

/-- C7 amended: the final answer carried by synthesizer_done is the first
content segment's text when that first segment is a text segment, and the
empty string otherwise; an empty segment list makes the `content[0]` read
throw, which surfaces as an error event instead of an answer. -/
theorem C7_amended (q : String) (o : RunOracle) (supResp : ModelResponse)
    (raw : String) (st rf : Option Json) (s : String)
    (synResp : ModelResponse) (b : ContentBlock) (rest : List ContentBlock)
    (hsup : o.supervisor = .ok supResp)
    (hht : jsHeadText supResp.content = .ok raw)
    (hst : jsGetField (parsePlan raw q) "search_term" = .ok st)
    (hrf : jsGetField (parsePlan raw q) "response_format" = .ok rf)
    (hlo : (runLoop o.tools o.researcher
        [{ role := "user", content := .str (researcherSeedContent st) }]).outcome = .done s)
    (hsyn : o.synthesizer = .ok synResp)
    (hc : synResp.content = b :: rest) :
    (POST q o).outcome = .completed (match b with | .text t => t | _ => "") ∧
    (POST q o).events.getLast? = some .supervisor_done ∧
    (∃ m, jsHeadText ([] : List ContentBlock) = .error m) := by
  have hja : jsHeadText synResp.content = .ok (match b with | .text t => t | _ => "") := by
    cases b <;> simp [hc, jsHeadText]
  unfold POST
  simp only [hsup, hht, hst, hrf, hlo, hsyn, hja]
  refine ⟨by trivial, ?_, ?_⟩
  · rw [List.getLast?_append_cons]
    rfl
  · exact ⟨_, rfl⟩

/-- C7 witness: a synthesizer response whose first segment is text. -/
theorem C7_witness :
    (planOracle "x").synthesizer = .ok ⟨[.text "answer"], "end_turn"⟩ ∧
    ((POST "q" (planOracle "x")).outcome =
        .completed (match ContentBlock.text "answer" with | .text t => t | _ => "") ∧
     (POST "q" (planOracle "x")).events.getLast? = some .supervisor_done ∧
     (∃ m, jsHeadText ([] : List ContentBlock) = .error m)) :=
  ⟨rfl, C7_amended "q" (planOracle "x") ⟨[.text "x"], "end_turn"⟩ "x"
    (some (.str "q")) (some (.str "Explicación clara y estructurada"))
    "findings" ⟨[.text "answer"], "end_turn"⟩ (.text "answer") []
    rfl rfl rfl rfl rfl rfl rfl⟩

/-- C5 counterexample: a fetch-article whose fetch promise rejects (source
unreachable at the network level) produces no result string: the exception
propagates out of the tool invocation, out of the loop, and aborts the run
with an error event — refuting "always produces a string result and never
propagates an exception out of the loop" for the unreachable case. -/
theorem C5_counterexample :
    runTool rejectTools "get_wikipedia_article" [("title", "X")] = .error "network down" ∧
    researchStep rejectTools c5Resp =
      .failed "network down"
        [.researcher_tool_call "get_wikipedia_article" [("title", "X")]] ∧
    (POST "q" c5Oracle).outcome = .errored "network down" ∧
    (POST "q" c5Oracle).events.getLast? = some (.error "network down") :=
  ⟨rfl, rfl, rfl, rfl⟩

/-- C5 amended: provided no fetch rejects, every tool invocation returns a
string result: an HTTP-unsuccessful or empty-result search yields the
no-results fallback string, an HTTP-unsuccessful fetch-article yields the
explicit not-found string, and an unrecognized tool name yields the literal
unknown-tool string.  A rejected fetch instead propagates an exception out
of the loop to the orchestrator boundary (the C5 counterexample). -/
theorem C5_amended (env : ToolEnv) (hnr : NoReject env)
    (name : String) (input : List (String × String)) :
    (runTool env name input).isOkResult = true ∧
    (name ≠ "search_wikipedia" → name ≠ "get_wikipedia_article" →
        runTool env name input = .ok ("Herramienta desconocida.",
          .researcher_tool_result name "Herramienta desconocida." none)) ∧
    (∀ pages, name = "search_wikipedia" →
        env.search { query := inputStr input "query", limit := 5 } = .response false pages →
        runTool env name input = .ok ("Sin resultados.",
          .researcher_tool_result "search_wikipedia" "Sin resultados" (some 0))) ∧
    (∀ pages, name = "search_wikipedia" →
        env.search { query := inputStr input "query", limit := 5 } = .response true pages →
        pages.getD [] = [] →
        runTool env name input = .ok ("Sin resultados.",
          .researcher_tool_result "search_wikipedia" "Sin resultados" (some 0))) ∧
    (∀ ext, name = "get_wikipedia_article" →
        env.article (inputStr input "title") = .response false ext →
        runTool env name input = .ok ("No se encontró el artículo: " ++ inputStr input "title",
          .researcher_tool_result "get_wikipedia_article"
            (if ("No se encontró el artículo: " ++ inputStr input "title").length > 120 then
               jsSlice ("No se encontró el artículo: " ++ inputStr input "title") 120 ++ "…"
             else "No se encontró el artículo: " ++ inputStr input "title") none)) := by
  refine ⟨?_, ?_, ?_, ?_, ?_⟩
  · by_cases h1 : name = "search_wikipedia"
    · subst h1
      cases hs : env.search { query := inputStr input "query", limit := 5 } with
      | reject m =>
        have h := hnr.1 { query := inputStr input "query", limit := 5 }
        rw [hs] at h
        simp [SearchFetchOutcome.isReject] at h
      | response ok pages =>
        unfold runTool searchWikipedia
        rw [hs]
        cases ok with
        | false => rfl
        | true => rfl
    · by_cases h2 : name = "get_wikipedia_article"
      · subst h2
        cases ha : env.article (inputStr input "title") with
        | reject m =>
          have h := hnr.2 (inputStr input "title")
          rw [ha] at h
          simp [ArticleFetchOutcome.isReject] at h
        | response ok ext =>
          unfold runTool getWikipediaArticle
          rw [ha]
          cases ok with
          | false => rfl
          | true => rfl
      · unfold runTool
        rw [if_neg h1, if_neg h2]
        rfl
  · intro h1 h2
    unfold runTool
    rw [if_neg h1, if_neg h2]
  · intro pages h1 hs
    subst h1
    unfold runTool searchWikipedia
    rw [hs]
    rfl
  · intro pages h1 hs hz
    subst h1
    unfold runTool searchWikipedia
    rw [hs]
    simp [hz]
  · intro ext h1 ha
    subst h1
    unfold runTool getWikipediaArticle
    rw [ha]
    rfl

/-- C5 witness: with HTTP-failing (but resolving) fetches, an unsuccessful
search, an unsuccessful fetch-article and an unknown tool all return their
fallback strings. -/
theorem C5_witness :
    NoReject c5aTools ∧
    ((runTool c5aTools "mystery_tool" []).isOkResult = true ∧
     (runTool c5aTools "mystery_tool" [] = .ok ("Herramienta desconocida.",
        .researcher_tool_result "mystery_tool" "Herramienta desconocida." none)) ∧
     runTool c5aTools "search_wikipedia" [("query", "x")] = .ok ("Sin resultados.",
        .researcher_tool_result "search_wikipedia" "Sin resultados" (some 0)) ∧
     runTool c5aTools "get_wikipedia_article" [("title", "X")] =
       .ok ("No se encontró el artículo: X",
         .researcher_tool_result "get_wikipedia_article" "No se encontró el artículo: X" none)) := by
  have hnr : NoReject c5aTools := ⟨fun _ => rfl, fun _ => rfl⟩
  refine ⟨hnr, (C5_amended c5aTools hnr "mystery_tool" []).1,
    (C5_amended c5aTools hnr "mystery_tool" []).2.1 (by decide) (by decide), ?_, ?_⟩
  · exact (C5_amended c5aTools hnr "search_wikipedia" [("query", "x")]).2.2.1 none rfl rfl
  · exact (C5_amended c5aTools hnr "get_wikipedia_article" [("title", "X")]).2.2.2.2 none rfl rfl

theorem stripAux_subset : ∀ (fuel : Nat) (cs : List Char), ∀ c ∈ stripAux fuel cs, c ∈ cs := by
  intro fuel
  induction fuel with
  | zero => intro cs c hc; simpa [stripAux] using hc
  | succ f ih =>
    intro cs c hc
    cases cs with
    | nil => simp [stripAux] at hc
    | cons d rest =>
      by_cases hd : d = '<'
      · rw [stripAux, if_pos hd] at hc
        by_cases hm : (rest.takeWhile fun x => ¬(x = '>')).length ≠ 0 ∧
            (rest.takeWhile fun x => ¬(x = '>')).length < rest.length
        · rw [if_pos hm] at hc
          exact List.mem_cons_of_mem _ (List.mem_of_mem_drop (ih _ c hc))
        · rw [if_neg hm] at hc
          rcases List.mem_cons.mp hc with h | h
          · exact h ▸ List.mem_cons_self _ _
          · exact List.mem_cons_of_mem _ (ih rest c h)
      · rw [stripAux, if_neg hd] at hc
        rcases List.mem_cons.mp hc with h | h
        · exact h ▸ List.mem_cons_self _ _
        · exact List.mem_cons_of_mem _ (ih rest c h)

theorem stripAux_nil (fuel : Nat) : stripAux fuel [] = [] := by
  cases fuel <;> rfl

theorem hasTag_stripAux : ∀ (fuel : Nat) (cs : List Char), cs.length ≤ fuel →
    hasTag (stripAux fuel cs) = false := by
  intro fuel
  induction fuel using Nat.strong_induction_on with
  | _ f ih =>
    intro cs hl
    cases f with
    | zero =>
      have h : cs = [] := List.eq_nil_of_length_eq_zero (Nat.le_zero.mp hl)
      subst h
      rfl
    | succ f1 =>
      cases cs with
      | nil => rfl
      | cons d rest =>
        have hrest : rest.length ≤ f1 := by simp at hl; omega
        by_cases hd : d = '<'
        · rw [stripAux, if_pos hd]
          by_cases hm : (rest.takeWhile fun x => ¬(x = '>')).length ≠ 0 ∧
              (rest.takeWhile fun x => ¬(x = '>')).length < rest.length
          · rw [if_pos hm]
            refine ih f1 (Nat.lt_succ_self f1) _ ?_
            have := List.length_drop ((rest.takeWhile fun x => ¬(x = '>')).length + 1) rest
            omega
          · rw [if_neg hm, hd, hasTag, if_pos rfl]
            have hout : hasTag (stripAux f1 rest) = false :=
              ih f1 (Nat.lt_succ_self f1) rest hrest
            rcases not_and_or.mp hm with h0 | hge
            · have h0 : (rest.takeWhile fun x => ¬(x = '>')).length = 0 := not_not.mp h0
              cases rest with
              | nil =>
                rw [stripAux_nil]
                rfl
              | cons e rest2 =>
                have he2 : e = '>' := by
                  by_contra hne
                  rw [List.takeWhile_cons] at h0
                  simp [hne] at h0
                cases f1 with
                | zero => simp at hrest
                | succ f2 =>
                  have hsx : stripAux (f2 + 1) ('>' :: rest2) = '>' :: stripAux f2 rest2 := by
                    rw [stripAux, if_neg (by decide)]
                  rw [he2, hsx]
                  rw [if_neg (by simp [List.takeWhile_cons])]
                  have hht : hasTag ('>' :: stripAux f2 rest2) = hasTag (stripAux f2 rest2) := by
                    rw [hasTag, if_neg (by decide)]
                  rw [hht]
                  refine ih f2 (by omega) rest2 ?_
                  simp at hrest
                  omega
            · have hle : (rest.takeWhile fun x => ¬(x = '>')).length ≤ rest.length :=
                (List.takeWhile_prefix _).length_le
              have heq : (rest.takeWhile fun x => ¬(x = '>')).length = rest.length := by omega
              have hpre : (rest.takeWhile fun x => ¬(x = '>')) = rest :=
                (List.takeWhile_prefix _).eq_of_length heq
              have hall : ∀ x ∈ rest, ¬(x = '>') := by
                intro x hx
                have := List.takeWhile_eq_self_iff.mp hpre x hx
                simpa using this
              have hpre2 : ((stripAux f1 rest).takeWhile fun x => ¬(x = '>'))
                  = stripAux f1 rest :=
                List.takeWhile_eq_self_iff.mpr fun x hx => by
                  simpa using hall x (stripAux_subset f1 rest x hx)
              rw [if_neg (by rw [hpre2]; omega)]
              exact hout
        · rw [stripAux, if_neg hd, hasTag, if_neg hd]
          exact ih f1 (Nat.lt_succ_self f1) rest hrest

/-- Strings produced by `stripTags` contain no match of `<[^>]+>`. -/
theorem stripTags_tagFree (s : String) : hasTag (stripTags s).data = false := by
  simpa [stripTags] using hasTag_stripAux s.data.length s.data (le_refl _)

/-- C8: the search operation requests at most `limit = 5` candidates (the
request the code builds), returns the empty list when the source responds
unsuccessfully, and otherwise returns one `{title, snippet}` per returned
page, in order, with the markup-stripped snippet (tag free); the
fetch-article operation returns the source's summary for an existing title
and the explicit not-found string when the response is unsuccessful. -/
theorem C8_theorem (fS : SearchRequest → SearchFetchOutcome)
    (fA : String → ArticleFetchOutcome) (q title : String) (ok ok2 : Bool)
    (pages : Option (List WikiPage)) (ext : Option String)
    (hs : fS { query := q, limit := 5 } = .response ok pages)
    (ha : fA title = .response ok2 ext) :
    (ok = false → searchWikipedia fS q = .ok []) ∧
    (ok = true →
      searchWikipedia fS q = .ok ((pages.getD []).map fun p =>
        { title := p.title, snippet := (p.excerpt.map stripTags).getD "" }) ∧
      ∀ rs, searchWikipedia fS q = .ok rs →
        rs.length = (pages.getD []).length ∧
        ((pages.getD []).length ≤ 5 → rs.length ≤ 5) ∧
        rs.map (·.title) = (pages.getD []).map (·.title) ∧
        ∀ r ∈ rs, hasTag r.snippet.data = false) ∧
    (ok2 = false →
      getWikipediaArticle fA title = .ok ("No se encontró el artículo: " ++ title)) ∧
    (ok2 = true → ∀ e, ext = some e → getWikipediaArticle fA title = .ok e) ∧
    (ok2 = true → ext = none →
      getWikipediaArticle fA title = .ok "Artículo sin contenido.") := by
  refine ⟨?_, ?_, ?_, ?_, ?_⟩
  · intro h
    subst h
    unfold searchWikipedia
    rw [hs]
    rfl
  · intro h
    subst h
    constructor
    · unfold searchWikipedia
      rw [hs]
      rfl
    · intro rs hrs
      unfold searchWikipedia at hrs
      rw [hs] at hrs
      simp at hrs
      subst hrs
      refine ⟨by simp, by simp, ?_, ?_⟩
      · simp [List.map_map, Function.comp]
      · intro r hr
        obtain ⟨p, hp, hpr⟩ := List.mem_map.mp hr
        rw [← hpr]
        cases hpe : p.excerpt with
        | none => simp [hpe]; rfl
        | some e => simpa [hpe] using stripTags_tagFree e
  · intro h
    subst h
    unfold getWikipediaArticle
    rw [ha]
    rfl
  · intro h e he
    subst h
    unfold getWikipediaArticle
    rw [ha, he]
    rfl
  · intro h he
    subst h
    unfold getWikipediaArticle
    rw [ha, he]
    rfl

/-- C8 witness: a successful search with two pages (one markup-laden
excerpt, one absent) and a successful article fetch. -/
theorem C8_witness :
    c8S { query := "q", limit := 5 } = .response true (some c8Pages) ∧
    ((true = false → searchWikipedia c8S "q" = .ok []) ∧
    (true = true →
      searchWikipedia c8S "q" = .ok (((some c8Pages).getD []).map fun p =>
        { title := p.title, snippet := (p.excerpt.map stripTags).getD "" }) ∧
      ∀ rs, searchWikipedia c8S "q" = .ok rs →
        rs.length = ((some c8Pages).getD []).length ∧
        (((some c8Pages).getD []).length ≤ 5 → rs.length ≤ 5) ∧
        rs.map (·.title) = ((some c8Pages).getD []).map (·.title) ∧
        ∀ r ∈ rs, hasTag r.snippet.data = false) ∧
    (true = false →
      getWikipediaArticle c8A "T1" = .ok ("No se encontró el artículo: " ++ "T1")) ∧
    (true = true → ∀ e, (some "Summary" : Option String) = some e →
      getWikipediaArticle c8A "T1" = .ok e) ∧
    (true = true → (some "Summary" : Option String) = none →
      getWikipediaArticle c8A "T1" = .ok "Artículo sin contenido.")) :=
  ⟨rfl, C8_theorem c8S c8A "q" "T1" true true (some c8Pages) (some "Summary") rfl rfl⟩

/-- C9 counterexample: a long search result (434 characters).  The emitted
researcher_tool_result event carries the comma-joined title list — here a
130-character string, longer than the 120-character display cap and not a
truncation of the result string — refuting "carries only a truncated
preview of the result" for the search tool. -/
theorem C9_counterexample :
    runTool c9Tools "search_wikipedia" [("query", "q")] =
      .ok (c9Result, .researcher_tool_result "search_wikipedia" longTitle (some 1)) ∧
    c9Result.length = 434 ∧
    longTitle.length = 130 ∧
    articlePreviewCap c9Result ≠ longTitle ∧
    dispatchTools c9Tools [.toolUse "t1" "search_wikipedia" [("query", "q")]] =
      ([.researcher_tool_call "search_wikipedia" [("query", "q")],
        .researcher_tool_result "search_wikipedia" longTitle (some 1)],
       .ok [.toolResult "t1" c9Result]) :=
  ⟨rfl, rfl, rfl, by decide, rfl⟩

theorem dispatchTools_stores_full (env : ToolEnv) :
    ∀ bs evs results, dispatchTools env bs = (evs, .ok results) →
      List.Forall₂ (fun b r =>
        ∃ id name input s ev, b = ContentBlock.toolUse id name input ∧
          r = ContentBlock.toolResult id s ∧ runTool env name input = .ok (s, ev))
        (bs.filter (isToolUseBlock ·)) results := by
  intro bs
  induction bs with
  | nil =>
    intro evs results h
    simp only [dispatchTools, Prod.mk.injEq] at h
    obtain ⟨-, h2⟩ := h
    cases h2
    simp
  | cons b bs ih =>
    intro evs results h
    cases b with
    | toolUse id name input =>
      simp only [dispatchTools] at h
      cases hrt : runTool env name input with
      | error e => rw [hrt] at h; simp at h
      | ok pr =>
        obtain ⟨result, resEv⟩ := pr
        rw [hrt] at h
        cases hd : dispatchTools env bs with
        | mk evs2 r2 =>
          cases r2 with
          | error e => rw [hd] at h; simp at h
          | ok results2 =>
            rw [hd] at h
            simp only [Prod.mk.injEq, Except.ok.injEq] at h
            obtain ⟨-, h2⟩ := h
            subst h2
            rw [List.filter_cons_of_pos (by rfl)]
            exact List.Forall₂.cons
              ⟨id, name, input, result, resEv, rfl, rfl, hrt⟩ (ih evs2 results2 hd)
    | text s =>
      simp only [dispatchTools] at h
      rw [List.filter_cons_of_neg (by simp [isToolUseBlock])]
      exact ih evs results h
    | toolResult id c =>
      simp only [dispatchTools] at h
      rw [List.filter_cons_of_neg (by simp [isToolUseBlock])]
      exact ih evs results h

/-- C9 amended: the display cap (120 characters plus ellipsis) applies to
the fetch-article branch's tool-result events only; the search branch's
event carries the uncapped comma-joined title list.  In every branch the
tool_result segment stored in the conversation history carries the full,
untruncated result string. -/
theorem C9_amended (env : ToolEnv) :
    (∀ input s ev, runTool env "get_wikipedia_article" input = .ok (s, ev) →
        ev = .researcher_tool_result "get_wikipedia_article" (articlePreviewCap s) none) ∧
    (∀ bs evs results, dispatchTools env bs = (evs, .ok results) →
        List.Forall₂ (fun b r =>
          ∃ id name input s ev, b = ContentBlock.toolUse id name input ∧
            r = ContentBlock.toolResult id s ∧ runTool env name input = .ok (s, ev))
          (bs.filter (isToolUseBlock ·)) results) := by
  constructor
  · intro input s ev h
    unfold runTool at h
    rw [if_neg (by decide), if_pos rfl] at h
    cases ha : getWikipediaArticle env.article (inputStr input "title") with
    | error e => rw [ha] at h; simp at h
    | ok result =>
      rw [ha] at h
      simp only [Except.ok.injEq, Prod.mk.injEq] at h
      obtain ⟨h1, h2⟩ := h
      subst h1
      rw [← h2]
      rfl
  · exact dispatchTools_stores_full env

/-- C9 witness: a 200-character article summary; the emitted preview is the
120-character truncation while the stored result is the full string. -/
theorem C9_witness :
    runTool c9wTools "get_wikipedia_article" [("title", "T")] =
      .ok (longExtract,
        .researcher_tool_result "get_wikipedia_article" (jsSlice longExtract 120 ++ "…") none) ∧
    (AgentEvent.researcher_tool_result "get_wikipedia_article"
        (jsSlice longExtract 120 ++ "…") none =
      .researcher_tool_result "get_wikipedia_article" (articlePreviewCap longExtract) none) ∧
    List.Forall₂ (fun b r =>
        ∃ id name input s ev, b = ContentBlock.toolUse id name input ∧
          r = ContentBlock.toolResult id s ∧ runTool c9wTools name input = .ok (s, ev))
      ([ContentBlock.toolUse "t1" "get_wikipedia_article" [("title", "T")]].filter
        (isToolUseBlock ·))
      [ContentBlock.toolResult "t1" longExtract] :=
  ⟨rfl,
   (C9_amended c9wTools).1 [("title", "T")] longExtract
     (.researcher_tool_result "get_wikipedia_article" (jsSlice longExtract 120 ++ "…") none) rfl,
   (C9_amended c9wTools).2 [.toolUse "t1" "get_wikipedia_article" [("title", "T")]]
     [.researcher_tool_call "get_wikipedia_article" [("title", "T")],
      .researcher_tool_result "get_wikipedia_article" (jsSlice longExtract 120 ++ "…") none]
     [.toolResult "t1" longExtract] rfl⟩

/-- Faithfulness samples for the `JSON.parse` model: arrays, non-integer
numbers, `\uXXXX` escapes and surrogate pairs are accepted as JavaScript
accepts them; leading-zero numbers, raw control characters in strings and
dangling fraction points are rejected as JavaScript rejects them. -/
theorem jsonParse_samples :
    jsonParse "\x7b\"search_term\":\"caf\\u00e9\",\"response_format\":\"y\"\x7d"
      = some (.obj [("search_term", .str "café"), ("response_format", .str "y")]) ∧
    jsonParse "\x7b\"a\":[1]\x7d" = some (.obj [("a", .arr [.num "1"])]) ∧
    jsonParse "[1,2]" = some (.arr [.num "1", .num "2"]) ∧
    jsonParse "\x7b\"a\":1.5\x7d" = some (.obj [("a", .num "1.5")]) ∧
    jsonParse "\"\\ud83d\\ude00\"" = some (.str "😀") ∧
    jsonParse "-0.5e+10" = some (.num "-0.5e+10") ∧
    jsonParse "\x7b\"a\":01\x7d" = none ∧
    jsonParse "\"a\tb\"" = none ∧
    jsonParse "1." = none ∧
    jsonParse "1e" = none :=
  ⟨rfl, rfl, rfl, rfl, rfl, rfl, rfl, rfl, rfl, rfl⟩
